import Mathlib

/-!
Verification development for the website-chatbot crawl-and-answer loop.

The Python sources (`src/nodes.py`, `src/flow.py`, `src/utils/url_utils.py`,
`src/utils/web_scraper.py`) are shallowly embedded below: pure helper
functions become Lean functions, the shared mutable store becomes an explicit
`SharedStore` record threaded through the step functions, and the two external
collaborators (the page fetcher and the language model) become oracle
arguments.  Machine behaviour that the source delegates to library code
(`urllib.parse.urlparse`, `yaml.safe_load`, the HTTP stack) is modelled at its
observable interface, as noted on each definition.
-/

/- ### Basic string helpers (Python `in`, `.lower()`, `.strip()`, `.split()`) -/

/-- Character-list equality on a leading segment: `leadEq n h` is true iff
`n` is an initial segment of `h`. -/
def leadEq : List Char → List Char → Bool
  | [], _ => true
  | _ :: _, [] => false
  | a :: as, b :: bs => a == b && leadEq as bs

/-- `hasSub n h` is true iff `n` occurs as a contiguous subsequence of `h`.
Models the Python substring containment on character lists. -/
def hasSub (n : List Char) : List Char → Bool
  | [] => leadEq n []
  | c :: t => leadEq n (c :: t) || hasSub n t

/-- `strIn n h` models the Python expression `n in h` on strings
(substring containment). -/
def strIn (n h : String) : Bool :=
  hasSub n.data h.data

/-- ASCII lower-casing of one character; models `str.lower` on the ASCII
inputs this program manipulates. -/
def lowerChar (c : Char) : Char :=
  if 'A' ≤ c && c ≤ 'Z' then Char.ofNat (c.toNat + 32) else c

/-- Models Python `s.lower()` (ASCII fragment). -/
def pyLower (s : String) : String :=
  String.mk (s.data.map lowerChar)

/-- The whitespace characters recognised by the Python `str.strip` and
`str.split()` functions. -/
def isPySpace (c : Char) : Bool :=
  c == ' ' || c == '\t' || c == '\n' || c == '\r' || c == '\x0b' || c == '\x0c'

/-- Models Python `s.strip()`: removes leading and trailing whitespace. -/
def pyStrip (s : String) : String :=
  String.mk (((s.data.dropWhile isPySpace).reverse.dropWhile isPySpace).reverse)

/-- Accumulator form of whitespace splitting (`cur` holds the current word,
reversed). -/
def splitWsAux (cur : List Char) : List Char → List String
  | [] => if cur.isEmpty then [] else [String.mk cur.reverse]
  | c :: t =>
    if isPySpace c then
      if cur.isEmpty then splitWsAux [] t
      else String.mk cur.reverse :: splitWsAux [] t
    else splitWsAux (c :: cur) t

/-- Models Python `s.split()` (no argument): split on whitespace runs,
discarding empty pieces. -/
def pySplitWs (s : String) : List String :=
  splitWsAux [] s.data

/-- Accumulator form of separator-class splitting: splits at every occurrence
of a separator character, keeping empty pieces, as `re.split` does with a
character class. -/
def splitSepsAux (seps : List Char) (cur : List Char) : List Char → List String
  | [] => [String.mk cur.reverse]
  | c :: t =>
    if seps.contains c then String.mk cur.reverse :: splitSepsAux seps [] t
    else splitSepsAux seps (c :: cur) t

/-- Models the `re.split` call of `get_url_keywords` on the separator class
slash, underscore, hyphen, dot. -/
def splitSeps (seps : List Char) (s : String) : List String :=
  splitSepsAux seps [] s.data

/-- Models Python `s.split(sep)` for a one-character separator: splits at
every occurrence, keeping empty pieces. -/
def pySplitChar (sep : Char) (s : String) : List String :=
  splitSepsAux [sep] [] s.data

/-- Models the Python slice `s[:n]` (first `n` code points). -/
def pyTake (s : String) (n : Nat) : String :=
  String.mk (s.data.take n)

/-- Models `s.endswith(suffix)` on strings. -/
def strEndsWith (s suff : String) : Bool :=
  leadEq suff.data.reverse s.data.reverse

/-- Drops the last `n` characters of a string (Python `s[:-n]`). -/
def strDropRight (s : String) (n : Nat) : String :=
  String.mk (s.data.take (s.data.length - n))

/- ### `src/utils/url_utils.py` -/

/-- The stop-word set of `extract_question_keywords` (src/utils/url_utils.py). -/
def stop_words : List String :=
  ["how", "what", "where", "when", "why", "who", "which", "can", "could",
   "would", "should", "do", "does", "did", "is", "are", "was", "were",
   "the", "a", "an", "and", "or", "but", "in", "on", "at", "to", "for",
   "of", "with", "by", "from", "up", "about", "into", "through", "during",
   "before", "after", "above", "below", "between", "among", "around"]

/-- Models the kept-character predicate of the `re.sub` punctuation-removal
in `extract_question_keywords`: word
characters (`\w`, ASCII fragment: alphanumerics and underscore) and
whitespace survive, everything else is deleted. -/
def isKeptChar (c : Char) : Bool :=
  c.isAlphanum || c == '_' || isPySpace c

/-- Embeds `extract_question_keywords` (src/utils/url_utils.py): lower-case,
delete non-word non-space characters, split on whitespace, drop stop words and
words of length ≤ 2. -/
def extract_question_keywords (question : String) : List String :=
  let question_clean := String.mk ((pyLower question).data.filter isKeptChar)
  let words := pySplitWs question_clean
  words.filter (fun word => !stop_words.contains word && word.length > 2)

/-- The characters following the first `"://"` occurrence, or `none` when
the marker is absent. -/
def dropScheme : List Char → Option (List Char)
  | [] => none
  | c :: t =>
    if leadEq [':', '/', '/'] (c :: t) then some (t.drop 2)
    else dropScheme t

/-- Models `urllib.parse.urlparse(url).path` for the absolute
`scheme://netloc/path` URLs this program passes in: the text from the first
slash after the authority, cut at the first `?` or `#`.  `urlparse` is
standard-library code, modelled at its observable interface. -/
def urlPath (url : String) : String :=
  let restL :=
    match dropScheme url.data with
    | some r => r
    | none => []
  let pathL := restL.drop (restL.takeWhile (fun c => c ≠ '/')).length
  String.mk (pathL.takeWhile (fun c => c ≠ '?' && c ≠ '#'))

/-- Models the `re.sub` call of `get_url_keywords` that removes one
trailing web-page extension. -/
def dropWebExt (path : String) : String :=
  if strEndsWith path ".html" then strDropRight path 5
  else if strEndsWith path ".htm" then strDropRight path 4
  else if strEndsWith path ".php" then strDropRight path 4
  else if strEndsWith path ".asp" then strDropRight path 4
  else if strEndsWith path ".jsp" then strDropRight path 4
  else path

/-- The generic path words filtered out by `get_url_keywords`. -/
def common_words : List String :=
  ["www", "index", "home", "page", "default", "main"]

/-- Embeds `get_url_keywords` (src/utils/url_utils.py). -/
def get_url_keywords (url : String) : List String :=
  let path := pyLower (urlPath url)
  let path := dropWebExt path
  let keywords := splitSeps ['/', '_', '-', '.'] path
  keywords.filter (fun k =>
    k ≠ "" && !common_words.contains k && k.length > 2)

/-- The helpful-page indicator vocabulary of `find_relevant_urls`. -/
def helpful_indicators : List String :=
  ["support", "help", "faq", "contact", "about",
   "policy", "return", "refund", "shipping",
   "product", "service", "documentation", "guide"]

/-- A hyperlink as returned by the page fetcher: URL plus anchor text. -/
structure Link where
  url : String
  text : String
deriving DecidableEq, Repr

/-- The scoring loop body of `find_relevant_urls` (src/utils/url_utils.py)
for one link: +3 per question keyword occurring in some URL-path keyword,
+2 per question keyword occurring in the anchor text, +1 per helpful-page
indicator occurring in the URL or the anchor text. -/
def scoreLink (link : Link) (question_keywords : List String) : Nat :=
  let url := pyLower link.url
  let text := pyLower link.text
  let url_keywords := get_url_keywords url
  let s1 := 3 * (question_keywords.filter (fun keyword =>
    url_keywords.any (fun uk => strIn (pyLower keyword) uk))).length
  let s2 := 2 * (question_keywords.filter (fun keyword =>
    strIn (pyLower keyword) text)).length
  let s3 := (helpful_indicators.filter (fun indicator =>
    strIn indicator url || strIn indicator text)).length
  s1 + s2 + s3

/-- One output entry of `find_relevant_urls`. -/
structure ScoredUrl where
  url : String
  text : String
  score : Nat
deriving DecidableEq, Repr

/-- Stable insertion step for descending-by-score order: `x` is placed
before the first entry whose score is not larger, so equal-score entries
keep their original relative order. -/
def insertDesc (x : ScoredUrl) : List ScoredUrl → List ScoredUrl
  | [] => [x]
  | y :: ys => if y.score > x.score then y :: insertDesc x ys else x :: y :: ys

/-- Stable sort by score, descending — models the stable Python
`list.sort(key=score, reverse=True)`. -/
def sortByScoreDesc : List ScoredUrl → List ScoredUrl
  | [] => []
  | x :: xs => insertDesc x (sortByScoreDesc xs)

/-- Embeds `find_relevant_urls` (src/utils/url_utils.py): keep links with a
positive score, sorted by score descending with the stable Python sort. -/
def find_relevant_urls (links : List Link) (question_keywords : List String) :
    List ScoredUrl :=
  let scored_urls := (links.filterMap (fun link =>
    let score := scoreLink link question_keywords
    if score > 0 then some ⟨link.url, link.text, score⟩ else none))
  sortByScoreDesc scored_urls

/- ### `src/utils/web_scraper.py`: `extract_relevant_content` -/

/-- Embeds `extract_relevant_content` (src/utils/web_scraper.py): split the
page text on `.`, keep the stripped sentences containing some keyword
(case-insensitive substring), join them with `. `; if none match (or the
input is empty or there are no keywords), fall back as the source does. -/
def extract_relevant_content (content : String) (keywords : List String) :
    String :=
  if content = "" ∨ keywords = [] then content
  else
    let sentences := pySplitChar '.' content
    let relevant_sentences := (sentences.map pyStrip).filter (fun sentence =>
      keywords.any (fun keyword => strIn (pyLower keyword) (pyLower sentence)))
    if relevant_sentences ≠ [] then
      String.intercalate ". " relevant_sentences
    else
      pyTake content 1000

/- ### Shared store (`src/flow.py`) and the two loop nodes (`src/nodes.py`) -/

/-- One stored page record: `url_content[url_index]` in the shared store. -/
structure PageRecord where
  url : String
  title : String
  content : String
deriving DecidableEq, Repr

/-- The shared store initialised by `initialize_shared_store` (src/flow.py)
and mutated by the nodes.  The Python `set` of visited indices is modelled as
a duplicate-free list (`setAdd` below preserves that), the
`url_content` dict as an insertion-ordered association list. -/
structure SharedStore where
  user_question : String
  question_keywords : List String
  urls_to_process : List Nat
  visited_urls : List Nat
  url_content : List (Nat × PageRecord)
  all_discovered_urls : List String
  final_answer : Option String
deriving DecidableEq, Repr

/-- Models Python `set.add` on the visited-indices set: membership-preserving
insert, no duplicates. -/
def setAdd (i : Nat) (l : List Nat) : List Nat :=
  if i ∈ l then l else l ++ [i]

/-- Models Python dict assignment `d[k] = v` on the ordered association list:
replace in place if the key exists, append otherwise. -/
def assocSet (l : List (Nat × PageRecord)) (k : Nat) (v : PageRecord) :
    List (Nat × PageRecord) :=
  if l.any (fun p => p.1 == k) then
    l.map (fun p => if p.1 == k then (k, v) else p)
  else l ++ [(k, v)]

/-- Embeds `initialize_shared_store` (src/flow.py). -/
def init_shared_store (user_question base_url : String) : SharedStore :=
  { user_question := user_question
    question_keywords := extract_question_keywords user_question
    urls_to_process := [0]
    visited_urls := []
    url_content := []
    all_discovered_urls := [base_url]
    final_answer := none }

/-- What the page fetcher (`scrape_website`, an external collaborator per the
spec) can return for one URL: a typed failure, or a title, the cleaned page
text and the same-domain outbound links. -/
inductive FetchOutcome where
  | failure (err : String)
  | success (title : String) (content : String) (links : List Link)
deriving DecidableEq, Repr

/-- Result of `CrawlAndExtract.prep` when the pending queue is non-empty and
the head index is in range. -/
structure CrawlPrepRes where
  url_index : Nat
  url : String
  question_keywords : List String
deriving DecidableEq, Repr

/-- Embeds `CrawlAndExtract.prep` (src/nodes.py): `none` models the falsy
`None` returned on an empty queue or an out-of-range head index. -/
def crawlPrep (s : SharedStore) : Option CrawlPrepRes :=
  match s.urls_to_process with
  | [] => none
  | url_index :: _ =>
    if url_index ≥ s.all_discovered_urls.length then none
    else some
      { url_index := url_index
        url := s.all_discovered_urls.getD url_index ""
        question_keywords := s.question_keywords }

/-- Result dict of `CrawlAndExtract.exec`: `content`/`title` are `none` on a
fetch failure (`error` then holds the message). -/
structure CrawlExecRes where
  url_index : Nat
  url : String
  title : Option String
  content : Option String
  links : List Link
  error : Option String
deriving DecidableEq, Repr

/-- Embeds `CrawlAndExtract.exec` (src/nodes.py) with the fetch outcome for
the prepared URL supplied as an explicit argument. -/
def crawlExecO (out : FetchOutcome) : Option CrawlPrepRes → Option CrawlExecRes
  | none => none
  | some pr =>
    match out with
    | .failure err =>
      some { url_index := pr.url_index, url := pr.url, title := none,
             content := none, links := [], error := some err }
    | .success title content links =>
      some { url_index := pr.url_index, url := pr.url, title := some title,
             content := some (extract_relevant_content content pr.question_keywords),
             links := links, error := none }

/-- Python truthiness of the `content` field in `CrawlAndExtract.post`:
`None` and the empty string are both falsy. -/
def contentTruthy : Option String → Bool
  | none => false
  | some c => c ≠ ""

/-- Embeds `CrawlAndExtract.post` (src/nodes.py): remove the index from the
pending queue, mark it visited, and — only when the extracted content is
truthy — record the page and merge the outbound links into the discovery
list.  Always returns the `"agent_decide"` action. -/
def crawlPost (s : SharedStore) : Option CrawlExecRes → SharedStore × String
  | none => (s, "agent_decide")
  | some r =>
    let urls_to_process :=
      if r.url_index ∈ s.urls_to_process then
        s.urls_to_process.erase r.url_index
      else s.urls_to_process
    let visited_urls := setAdd r.url_index s.visited_urls
    let s1 := { s with urls_to_process := urls_to_process,
                       visited_urls := visited_urls }
    if contentTruthy r.content then
      let url_content := assocSet s1.url_content r.url_index
        { url := r.url, title := r.title.getD "", content := r.content.getD "" }
      let all_discovered_urls := r.links.foldl
        (fun acc link => if link.url ∈ acc then acc else acc ++ [link.url])
        s1.all_discovered_urls
      ({ s1 with url_content := url_content,
                 all_discovered_urls := all_discovered_urls }, "agent_decide")
    else (s1, "agent_decide")

/-- One Crawl Step with a fixed fetch outcome (used when quantifying over
arbitrary fetch behaviour). -/
def crawlStepO (out : FetchOutcome) (s : SharedStore) : SharedStore × String :=
  crawlPost s (crawlExecO out (crawlPrep s))

/-- One Crawl Step driven by a fetch oracle. -/
def crawlStep (fetch : String → FetchOutcome) (s : SharedStore) :
    SharedStore × String :=
  match crawlPrep s with
  | none => crawlPost s none
  | some pr => crawlPost s (crawlExecO (fetch pr.url) (some pr))

/-- One entry of the compiled `collected_info` list in `AgentDecision.prep`
(content truncated to 500 characters). -/
structure CollectedInfo where
  url : String
  title : String
  content : String
deriving DecidableEq, Repr

/-- Result dict of `AgentDecision.prep`. -/
structure DecisionPrepRes where
  question : String
  keywords : List String
  collected_info : List CollectedInfo
  available_links : List Link
  visited_count : Nat
  pending_urls : Nat
deriving DecidableEq, Repr

/-- Embeds `AgentDecision.prep` (src/nodes.py).  Note the source guards the
candidate-link computation by the truthiness of both `all_discovered_urls`
and `visited_urls`, and caps the candidates at 10. -/
def agentDecisionPrep (s : SharedStore) : DecisionPrepRes :=
  let collected_info := s.url_content.map (fun p =>
    { url := p.2.url, title := p.2.title, content := pyTake p.2.content 500 })
  let available_links :=
    if s.all_discovered_urls ≠ [] ∧ s.visited_urls ≠ [] then
      s.all_discovered_urls.enum.filterMap (fun iu =>
        if iu.1 ∈ s.visited_urls then none
        else some ({ url := iu.2, text := iu.2 } : Link))
    else []
  { question := s.user_question
    keywords := s.question_keywords
    collected_info := collected_info
    available_links := available_links.take 10
    visited_count := s.visited_urls.length
    pending_urls := s.urls_to_process.length }

/-- The prompt literal built in `AgentDecision.exec` (src/nodes.py). -/
def buildDecisionPrompt (pr : DecisionPrepRes) : String :=
  let info_summary := String.intercalate "\n" (pr.collected_info.map (fun info =>
    "Page: " ++ info.title ++ " (" ++ info.url ++ ")\nContent: "
      ++ info.content ++ "\n"))
  let available_urls := String.intercalate "\n"
    ((pr.available_links.take 5).map (fun link => "- " ++ link.url))
  "\nYou are a web research agent. Analyze the current situation and decide the next action.\n\nQUESTION: "
  ++ pr.question
  ++ "\n\nINFORMATION COLLECTED SO FAR:\n"
  ++ (if info_summary ≠ "" then info_summary else "No information collected yet.")
  ++ "\n\nAVAILABLE URLS TO EXPLORE:\n"
  ++ (if available_urls ≠ "" then available_urls else "No more URLs available.")
  ++ "\n\nCURRENT STATUS:\n- Pages visited: "
  ++ toString pr.visited_count
  ++ "\n- Available unvisited URLs: "
  ++ toString pr.available_links.length
  ++ "\n\nDECISION CRITERIA:\n1. If you have sufficient information to answer the question comprehensively, choose \"answer\"\n2. If you need more specific information and there are relevant URLs available, choose \"explore\" \n3. If you\x27ve visited 5+ pages without finding relevant info, choose \"answer\"\n4. If no more URLs are available, choose \"answer\"\n\nChoose your action and provide reasoning:\n\n```yaml\naction: explore  # or \"answer\"\nreasoning: |\n  Explain why you chose this action based on the information available\n  and what you\x27re looking for\nnext_url: |\n  If action is \"explore\", specify which URL from available URLs seems most promising\n  and why. Just provide the URL.\n```"

/-- The mapping `yaml.safe_load` can produce from the fenced block, restricted
to the three keys the node reads. -/
structure YamlDict where
  action : Option String := none
  reasoning : Option String := none
  next_url : Option String := none
deriving DecidableEq, Repr

/-- The observable outcome of the response-parsing stage of
`AgentDecision.exec`: `none` models a response without a fenced block
(`response.find` fails); `some (.error e)` models `yaml.safe_load` (or the
subsequent dict manipulation) raising an exception with message `e`;
`some (.ok d)` models a successfully parsed mapping.  The YAML library is an
external collaborator, modelled at this interface. -/
structure ModelResponse where
  block : Option (Except String YamlDict)

/-- The decision dict returned by `AgentDecision.exec` and consumed by
`AgentDecision.post`.  The unreachable no-data fast path fills the key
`reason` (not `reasoning`), so both keys are modelled. -/
structure Decision where
  action : String
  reasoning : Option String := none
  reason : Option String := none
  next_url : Option String := none
deriving DecidableEq, Repr

/-- The result of `AgentDecision.exec` together with whether `call_llm` was
invoked during the call. -/
structure DecisionExecOut where
  decision : Decision
  llmCalled : Bool
deriving Repr

/-- Embeds `AgentDecision.exec` (src/nodes.py).  The falsy-`prep_res` guard
returns the no-data dict without calling the model; otherwise the model is
called on the built prompt and its response parsed: missing fenced block →
the fallback dict; parse exception → the `except` branch dict; parsed
mapping → its `action` forced to `"answer"` unless it is `"explore"` or
`"answer"`. -/
def agentDecisionExec (prepRes : Option DecisionPrepRes)
    (llm : String → ModelResponse) : DecisionExecOut :=
  match prepRes with
  | none =>
    { decision := { action := "answer", reason := some "No data to process" }
      llmCalled := false }
  | some pr =>
    let response := llm (buildDecisionPrompt pr)
    let result : Decision :=
      match response.block with
      | none =>
        { action := "answer", reasoning := some "Failed to parse decision" }
      | some (.error e) =>
        { action := "answer",
          reasoning := some ("Error parsing decision: " ++ e) }
      | some (.ok d) =>
        let act :=
          match d.action with
          | some a => if a = "explore" ∨ a = "answer" then a else "answer"
          | none => "answer"
        { action := act, reasoning := d.reasoning, next_url := d.next_url }
    { decision := result, llmCalled := true }

/-- The fuzzy-match loop in `AgentDecision.post`: the first index whose URL
contains, or is contained in, the stripped `next_url` of the model. -/
def findNextUrlIndex (next_url : String) : List String → Option Nat
  | [] => none
  | url :: rest =>
    if strIn next_url url || strIn url next_url then some 0
    else (findNextUrlIndex next_url rest).map (· + 1)

/-- Embeds `AgentDecision.post` (src/nodes.py): on an `explore` action, strip
the returned `next_url`, fuzzy-match it against the discovery list, and
requeue the matched index iff it is neither visited nor pending (returning
`"explore"`); in every other case return `"answer"` with the store
unchanged. -/
def agentDecisionPost (s : SharedStore) (exec_res : Decision) :
    SharedStore × String :=
  if exec_res.action = "explore" then
    let next_url := pyStrip (exec_res.next_url.getD "")
    match findNextUrlIndex next_url s.all_discovered_urls with
    | some next_url_index =>
      if next_url_index ∉ s.visited_urls ∧
          next_url_index ∉ s.urls_to_process then
        ({ s with urls_to_process := s.urls_to_process ++ [next_url_index] },
         "explore")
      else (s, "answer")
    | none => (s, "answer")
  else (s, "answer")

/-- One Decision Step: prep, exec (with the model oracle), post.  The third
component records whether the model was invoked. -/
def agentDecisionStep (llm : String → ModelResponse) (s : SharedStore) :
    SharedStore × String × Bool :=
  let out := agentDecisionExec (some (agentDecisionPrep s)) llm
  let p := agentDecisionPost s out.decision
  (p.1, p.2, out.llmCalled)

/- ### The flow graph (`src/flow.py`) -/

/-- The three nodes wired by `create_chatbot_flow`. -/
inductive NodeId where
  | crawl
  | agent
  | draft
deriving DecidableEq, Repr

/-- The action-labelled edges wired by `create_chatbot_flow` (src/flow.py):
`crawl --agent_decide--> agent`, `agent --explore--> crawl`,
`agent --answer--> draft`. -/
def flowEdge : NodeId → String → Option NodeId
  | .crawl, "agent_decide" => some .agent
  | .agent, "explore" => some .crawl
  | .agent, "answer" => some .draft
  | _, _ => none

/-- The crawl/decide cycle of the flow, with fuel: runs a Crawl Step then a
Decision Step, loops on the `"explore"` signal, and stops on anything else.
Returns the final store, the final Decision-Step signal, and the number of
completed cycles. -/
def runLoop (fetch : String → FetchOutcome) (llm : String → ModelResponse) :
    Nat → SharedStore → SharedStore × String × Nat
  | 0, s => (s, "", 0)
  | fuel + 1, s =>
    let c := crawlStep fetch s
    let d := agentDecisionStep llm c.1
    if d.2.1 = "explore" then
      let r := runLoop fetch llm fuel d.1
      (r.1, r.2.1, r.2.2 + 1)
    else (d.1, d.2.1, 1)

/- ### Spec-side characterisation of link discovery -/

/-- Characterisation, following the spec wording of `discoverLinks`: the
sub-list of `urls` whose members are appended to a list currently containing
`seen` — each URL not already present is kept, in the order given, duplicates
skipped after their first occurrence. -/
def dedupNew (seen : List String) : List String → List String
  | [] => []
  | u :: us =>
    if u ∈ seen then dedupNew seen us
    else u :: dedupNew (seen ++ [u]) us

/-- The link-merging fold of `CrawlAndExtract.post` appends exactly the
`dedupNew` sub-list of the incoming link URLs. -/
theorem links_foldl_discover (links : List Link) (acc : List String) :
    links.foldl
      (fun a link => if link.url ∈ a then a else a ++ [link.url]) acc
      = acc ++ dedupNew acc (links.map Link.url) := by
  induction links generalizing acc with
  | nil => simp [dedupNew]
  | cons l ls ih =>
    simp only [List.foldl_cons, List.map_cons, dedupNew]
    by_cases h : l.url ∈ acc
    · simp only [h, if_pos, if_true]
      exact ih acc
    · simp only [h, if_neg, if_false, ite_false]
      rw [ih (acc ++ [l.url])]
      simp

/-- The link-merging fold never shrinks the discovery list. -/
theorem discover_length_le (links : List Link) (acc : List String) :
    acc.length ≤
      (links.foldl
        (fun a link => if link.url ∈ a then a else a ++ [link.url]) acc).length := by
  rw [links_foldl_discover]
  simp

/-- Every member of `urls` ends up in `seen ++ dedupNew seen urls`. -/
theorem mem_append_dedupNew {u : String} {urls : List String}
    (seen : List String) (hu : u ∈ urls) : u ∈ seen ++ dedupNew seen urls := by
  induction urls generalizing seen with
  | nil => cases hu
  | cons v vs ih =>
    rw [dedupNew]
    rcases List.mem_cons.mp hu with rfl | hu'
    · by_cases h : u ∈ seen
      · simp only [h, if_pos, if_true]
        exact List.mem_append_left _ h
      · simp [h]
    · by_cases h : v ∈ seen
      · simp only [h, if_pos, if_true]
        exact ih seen hu'
      · simp only [h, if_neg, ite_false]
        have := ih (seen ++ [v]) hu'
        simpa [List.append_assoc] using this

/-- Every incoming link URL is present after the merge. -/
theorem mem_foldl_discover {links : List Link} {acc : List String} :
    ∀ l ∈ links, l.url ∈
      links.foldl
        (fun a link => if link.url ∈ a then a else a ++ [link.url]) acc := by
  rw [links_foldl_discover]
  exact fun l hl => mem_append_dedupNew acc (List.mem_map_of_mem Link.url hl)

/- ### Helper lemmas about the visited-set model -/

theorem mem_setAdd {i j : Nat} {l : List Nat} :
    i ∈ setAdd j l ↔ i = j ∨ i ∈ l := by
  unfold setAdd
  by_cases h : j ∈ l
  · simp only [h, if_pos, if_true]
    constructor
    · exact Or.inr
    · rintro (rfl | hi)
      · exact h
      · exact hi
  · simp [h, List.mem_append, or_comm]

theorem self_mem_setAdd (j : Nat) (l : List Nat) : j ∈ setAdd j l :=
  mem_setAdd.mpr (Or.inl rfl)

/- ### Helper lemmas about the fuzzy URL match -/

/-- The empty string is a substring of every string (Python `"" in s`). -/
theorem strIn_empty_left (h : String) : strIn "" h = true := by
  unfold strIn hasSub
  cases h.data <;> simp [leadEq]

theorem findNextUrlIndex_lt_length {nu : String} {urls : List String}
    {i : Nat} (h : findNextUrlIndex nu urls = some i) : i < urls.length := by
  induction urls generalizing i with
  | nil => simp [findNextUrlIndex] at h
  | cons u rest ih =>
    rw [findNextUrlIndex] at h
    split at h
    · cases h
      simp
    · rcases Option.map_eq_some'.1 h with ⟨j, hj, rfl⟩
      have := ih hj
      simp only [List.length_cons]
      omega

theorem findNextUrlIndex_eq_none_iff (nu : String) (urls : List String) :
    findNextUrlIndex nu urls = none ↔
      ∀ u ∈ urls, (strIn nu u || strIn u nu) = false := by
  induction urls with
  | nil => simp [findNextUrlIndex]
  | cons u rest ih =>
    rw [findNextUrlIndex]
    constructor
    · intro h
      split at h
      · cases h
      · rename_i hc
        intro v hv
        rcases List.mem_cons.mp hv with rfl | hv'
        · simpa using hc
        · exact (ih.1 (by simpa using h)) v hv'
    · intro h
      have hu := h u (List.mem_cons_self u rest)
      rw [if_neg (by simp [hu])]
      have hrest : findNextUrlIndex nu rest = none :=
        ih.2 (fun v hv => h v (List.mem_cons_of_mem u hv))
      simp [hrest]

/-- `findNextUrlIndex` returns the first matching position. -/
theorem findNextUrlIndex_first {nu : String} {urls : List String} {i : Nat}
    (h : findNextUrlIndex nu urls = some i) :
    (strIn nu (urls.getD i "") || strIn (urls.getD i "") nu) = true ∧
      ∀ j < i, (strIn nu (urls.getD j "") || strIn (urls.getD j "") nu) = false := by
  induction urls generalizing i with
  | nil => simp [findNextUrlIndex] at h
  | cons u rest ih =>
    rw [findNextUrlIndex] at h
    split at h
    · cases h
      rename_i hc
      exact ⟨by simpa using hc, by omega⟩
    · rcases Option.map_eq_some'.1 h with ⟨j, hj, rfl⟩
      rename_i hc
      obtain ⟨h1, h2⟩ := ih hj
      refine ⟨by simpa using h1, ?_⟩
      intro k hk
      cases k with
      | zero => simpa using hc
      | succ k' =>
        have := h2 k' (by omega)
        simpa using this

/- ### Frontier invariant and reachability -/

/-- The frontier invariant of the data model in the spec, strengthened with
duplicate-freeness of the pending queue (which the operations preserve and
which the disjointness argument needs): no index is both pending and
visited, and every tracked index addresses a discovered URL. -/
def StoreInv (s : SharedStore) : Prop :=
  s.urls_to_process.Nodup ∧
  (∀ i ∈ s.urls_to_process, i ∉ s.visited_urls) ∧
  (∀ i ∈ s.urls_to_process, i < s.all_discovered_urls.length) ∧
  (∀ i ∈ s.visited_urls, i < s.all_discovered_urls.length)

/-- The store component of `CrawlAndExtract.post` on a non-`None` exec
result, with the let-chain flattened. -/
theorem crawlPost_some_fst (s : SharedStore) (r : CrawlExecRes) :
    (crawlPost s (some r)).1 =
      if contentTruthy r.content then
        { s with
          urls_to_process :=
            if r.url_index ∈ s.urls_to_process then
              s.urls_to_process.erase r.url_index
            else s.urls_to_process
          visited_urls := setAdd r.url_index s.visited_urls
          url_content := assocSet s.url_content r.url_index
            { url := r.url, title := r.title.getD "",
              content := r.content.getD "" }
          all_discovered_urls := r.links.foldl
            (fun acc link => if link.url ∈ acc then acc else acc ++ [link.url])
            s.all_discovered_urls }
      else
        { s with
          urls_to_process :=
            if r.url_index ∈ s.urls_to_process then
              s.urls_to_process.erase r.url_index
            else s.urls_to_process
          visited_urls := setAdd r.url_index s.visited_urls } := by
  unfold crawlPost
  dsimp only
  split <;> rfl

/-- `CrawlAndExtract.post` always emits the `"agent_decide"` action. -/
theorem crawlPost_snd (s : SharedStore) (o : Option CrawlExecRes) :
    (crawlPost s o).2 = "agent_decide" := by
  unfold crawlPost
  cases o with
  | none => rfl
  | some r =>
    dsimp only
    split <;> rfl

theorem storeInv_crawlPost (s : SharedStore) (r : CrawlExecRes)
    (h : StoreInv s) (hidx : r.url_index < s.all_discovered_urls.length) :
    StoreInv (crawlPost s (some r)).1 := by
  obtain ⟨hnd, hdisj, hpb, hvb⟩ := h
  rw [crawlPost_some_fst]
  set p' := (if r.url_index ∈ s.urls_to_process then
      s.urls_to_process.erase r.url_index else s.urls_to_process) with hp'
  have hp'nd : p'.Nodup := by
    rw [hp']
    split
    · exact hnd.erase _
    · exact hnd
  have hp'sub : ∀ i ∈ p', i ∈ s.urls_to_process := by
    rw [hp']
    split
    · exact fun i hi => List.mem_of_mem_erase hi
    · exact fun i hi => hi
  have hp'ne : ∀ i ∈ p', i ≠ r.url_index := by
    rw [hp']
    split
    · intro i hi
      exact ((List.Nodup.mem_erase_iff hnd).1 hi).1
    · rename_i hmem
      intro i hi hEq
      exact hmem (hEq ▸ hi)
  have hdisj' : ∀ i ∈ p', i ∉ setAdd r.url_index s.visited_urls := by
    intro i hi hmem
    rcases mem_setAdd.1 hmem with hEq | hv
    · exact hp'ne i hi hEq
    · exact hdisj i (hp'sub i hi) hv
  have hlen : s.all_discovered_urls.length ≤
      (r.links.foldl
        (fun acc link => if link.url ∈ acc then acc else acc ++ [link.url])
        s.all_discovered_urls).length :=
    discover_length_le r.links s.all_discovered_urls
  split
  · refine ⟨hp'nd, hdisj', ?_, ?_⟩
    · intro i hi
      exact lt_of_lt_of_le (hpb i (hp'sub i hi)) hlen
    · intro i hi
      rcases mem_setAdd.1 hi with hEq | hv
      · exact lt_of_lt_of_le (hEq ▸ hidx) hlen
      · exact lt_of_lt_of_le (hvb i hv) hlen
  · refine ⟨hp'nd, hdisj', ?_, ?_⟩
    · intro i hi
      exact hpb i (hp'sub i hi)
    · intro i hi
      rcases mem_setAdd.1 hi with hEq | hv
      · exact hEq ▸ hidx
      · exact hvb i hv

/-- Any index prepared by `CrawlAndExtract.prep` addresses a discovered
URL. -/
theorem crawlPrep_some_lt {s : SharedStore} {pr : CrawlPrepRes}
    (h : crawlPrep s = some pr) :
    pr.url_index < s.all_discovered_urls.length := by
  unfold crawlPrep at h
  rcases hq : s.urls_to_process with _ | ⟨idx, rest⟩ <;> rw [hq] at h
  · cases h
  · dsimp only at h
    by_cases hge : idx ≥ s.all_discovered_urls.length
    · rw [if_pos hge] at h
      cases h
    · rw [if_neg hge] at h
      cases h
      exact Nat.lt_of_not_le hge

theorem storeInv_crawlStepO (out : FetchOutcome) (s : SharedStore)
    (h : StoreInv s) : StoreInv (crawlStepO out s).1 := by
  unfold crawlStepO
  rcases hp : crawlPrep s with _ | pr
  · exact h
  · have hlt := crawlPrep_some_lt hp
    cases out with
    | failure e => exact storeInv_crawlPost s _ h hlt
    | success t c l => exact storeInv_crawlPost s _ h hlt

theorem storeInv_decisionPost (d : Decision) (s : SharedStore)
    (h : StoreInv s) : StoreInv (agentDecisionPost s d).1 := by
  obtain ⟨hnd, hdisj, hpb, hvb⟩ := h
  unfold agentDecisionPost
  by_cases ha : d.action = "explore"
  · rw [if_pos ha]
    dsimp only
    rcases hf : findNextUrlIndex (pyStrip (d.next_url.getD ""))
        s.all_discovered_urls with _ | i
    · exact ⟨hnd, hdisj, hpb, hvb⟩
    · dsimp only
      by_cases hvp : i ∉ s.visited_urls ∧ i ∉ s.urls_to_process
      · rw [if_pos hvp]
        have hilt := findNextUrlIndex_lt_length hf
        refine ⟨?_, ?_, ?_, hvb⟩
        · rw [List.nodup_append]
          exact ⟨hnd, List.nodup_singleton i,
            fun a hamem hbmem => by
              rw [List.mem_singleton] at hbmem
              exact hvp.2 (hbmem ▸ hamem)⟩
        · intro j hj
          rcases List.mem_append.1 hj with hj' | hj'
          · exact hdisj j hj'
          · rw [List.mem_singleton] at hj'
            exact hj' ▸ hvp.1
        · intro j hj
          rcases List.mem_append.1 hj with hj' | hj'
          · exact hpb j hj'
          · rw [List.mem_singleton] at hj'
            exact hj' ▸ hilt
      · rw [if_neg hvp]
        exact ⟨hnd, hdisj, hpb, hvb⟩
  · rw [if_neg ha]
    exact ⟨hnd, hdisj, hpb, hvb⟩

/-- States reachable from a given store by any sequence of Crawl Step and
Decision Step transitions, with arbitrary fetch outcomes and arbitrary
decision dicts at each step. -/
inductive Reach (s0 : SharedStore) : SharedStore → Prop where
  | refl : Reach s0 s0
  | step_crawl {s : SharedStore} (out : FetchOutcome) :
      Reach s0 s → Reach s0 (crawlStepO out s).1
  | step_decide {s : SharedStore} (d : Decision) :
      Reach s0 s → Reach s0 (agentDecisionPost s d).1

theorem storeInv_init (q seed : String) :
    StoreInv (init_shared_store q seed) := by
  refine ⟨?_, ?_, ?_, ?_⟩ <;> simp [init_shared_store]

theorem reach_storeInv {q seed : String} {s : SharedStore}
    (h : Reach (init_shared_store q seed) s) : StoreInv s := by
  induction h with
  | refl => exact storeInv_init q seed
  | step_crawl out _ ih => exact storeInv_crawlStepO out _ ih
  | step_decide d _ ih => exact storeInv_decisionPost d _ ih

/- ### Shape lemmas for `AgentDecision.post` -/

theorem agentDecisionPost_not_explore {s : SharedStore} {d : Decision}
    (ha : d.action ≠ "explore") : agentDecisionPost s d = (s, "answer") := by
  unfold agentDecisionPost
  rw [if_neg ha]

theorem agentDecisionPost_of_none {s : SharedStore} {d : Decision}
    (ha : d.action = "explore")
    (hf : findNextUrlIndex (pyStrip (d.next_url.getD ""))
      s.all_discovered_urls = none) :
    agentDecisionPost s d = (s, "answer") := by
  unfold agentDecisionPost
  rw [if_pos ha]
  dsimp only
  rw [hf]

theorem agentDecisionPost_of_some_free {s : SharedStore} {d : Decision}
    {i : Nat} (ha : d.action = "explore")
    (hf : findNextUrlIndex (pyStrip (d.next_url.getD ""))
      s.all_discovered_urls = some i)
    (h0 : i ∉ s.visited_urls) (h1 : i ∉ s.urls_to_process) :
    agentDecisionPost s d =
      ({ s with urls_to_process := s.urls_to_process ++ [i] }, "explore") := by
  unfold agentDecisionPost
  rw [if_pos ha]
  dsimp only
  rw [hf]
  dsimp only
  rw [if_pos ⟨h0, h1⟩]

theorem agentDecisionPost_of_some_blocked {s : SharedStore} {d : Decision}
    {i : Nat} (ha : d.action = "explore")
    (hf : findNextUrlIndex (pyStrip (d.next_url.getD ""))
      s.all_discovered_urls = some i)
    (h : i ∈ s.visited_urls ∨ i ∈ s.urls_to_process) :
    agentDecisionPost s d = (s, "answer") := by
  unfold agentDecisionPost
  rw [if_pos ha]
  dsimp only
  rw [hf]
  dsimp only
  rw [if_neg (by tauto)]

/- ### Claim theorems -/

/-- C1 (counterexample): in a run state with zero collected page contents and
zero candidate links — the freshly initialised store — the Decision Step
does invoke the model collaborator (`llmCalled = true`), and with a model
response lacking a structured block the resulting reasoning is
`"Failed to parse decision"`, which does not contain `"No data"`.  This
refutes the claim that the step answers with a `"No data"` reasoning without
calling the model. -/
theorem claim_C1_counterexample :
    (agentDecisionPrep
      (init_shared_store "How do I get a refund?" "https://example.com")).collected_info = [] ∧
    (agentDecisionPrep
      (init_shared_store "How do I get a refund?" "https://example.com")).available_links = [] ∧
    (agentDecisionStep (fun _ => ⟨none⟩)
      (init_shared_store "How do I get a refund?" "https://example.com")).2.2 = true ∧
    (agentDecisionExec
      (some (agentDecisionPrep
        (init_shared_store "How do I get a refund?" "https://example.com")))
      (fun _ => ⟨none⟩)).decision.reasoning = some "Failed to parse decision" ∧
    strIn "No data" "Failed to parse decision" = false := by
  exact ⟨rfl, rfl, rfl, rfl, by decide⟩

/-- C1 (amended): `AgentDecision.exec` skips the model call only when its
prep result is falsy, returning the `"No data to process"` dict (under the
key `reason`); but `AgentDecision.prep` always returns a non-empty context
dict, so the Decision Step invokes the model collaborator in every cycle —
in particular also when zero page contents and zero candidate links have
been collected. -/
theorem claim_C1_amended (s : SharedStore) (llm : String → ModelResponse) :
    (agentDecisionStep llm s).2.2 = true ∧
    agentDecisionExec none llm =
      { decision := { action := "answer", reasoning := none,
                      reason := some "No data to process", next_url := none },
        llmCalled := false } := by
  exact ⟨rfl, rfl⟩

/-- C5 (counterexample): a model response whose structured block parses to a
mapping with the invalid action value `"maybe"` makes the Decision Step
return action `"answer"` but with the reasoning of the model (`"let us see"`),
not a reasoning of `"failed to parse"` — refuting the claimed reasoning for
the invalid-action case. -/
theorem claim_C5_counterexample :
    (agentDecisionExec
      (some (agentDecisionPrep (init_shared_store "q" "https://example.com")))
      (fun _ => ⟨some (Except.ok
        { action := some "maybe", reasoning := some "let us see" })⟩)).decision =
      { action := "answer", reasoning := some "let us see" } ∧
    strIn "failed to parse" (pyLower "let us see") = false := by
  exact ⟨rfl, by decide⟩

/-- C5 (amended): whenever the structured block is absent, unparseable, or
carries a missing/invalid action value, `AgentDecision.exec` returns a
decision with action `"answer"` and raises no error; the reasoning is
`"Failed to parse decision"` exactly when the block is absent,
`"Error parsing decision: <e>"` when parsing raises `e`, and the unchanged
model reasoning when only the action value is missing or invalid. -/
theorem claim_C5_amended (pr : DecisionPrepRes) (llm : String → ModelResponse) :
    ((llm (buildDecisionPrompt pr)).block = none →
      (agentDecisionExec (some pr) llm).decision =
        { action := "answer", reasoning := some "Failed to parse decision" }) ∧
    (∀ e, (llm (buildDecisionPrompt pr)).block = some (Except.error e) →
      (agentDecisionExec (some pr) llm).decision =
        { action := "answer",
          reasoning := some ("Error parsing decision: " ++ e) }) ∧
    (∀ d, (llm (buildDecisionPrompt pr)).block = some (Except.ok d) →
      d.action = none →
      (agentDecisionExec (some pr) llm).decision =
        { action := "answer", reasoning := d.reasoning,
          next_url := d.next_url }) ∧
    (∀ d a, (llm (buildDecisionPrompt pr)).block = some (Except.ok d) →
      d.action = some a → a ≠ "explore" → a ≠ "answer" →
      (agentDecisionExec (some pr) llm).decision =
        { action := "answer", reasoning := d.reasoning,
          next_url := d.next_url }) := by
  refine ⟨?_, ?_, ?_, ?_⟩
  · intro h
    unfold agentDecisionExec
    dsimp only
    rw [h]
  · intro e h
    unfold agentDecisionExec
    dsimp only
    rw [h]
  · intro d h hact
    unfold agentDecisionExec
    dsimp only
    rw [h]
    dsimp only
    rw [hact]
  · intro d a h hact h1 h2
    unfold agentDecisionExec
    dsimp only
    rw [h]
    dsimp only
    rw [hact]
    dsimp only
    rw [if_neg (by simp [h1, h2])]

/-- C5 (witness): the amended theorem applied to the prep result of the
initial store and a model oracle that never returns a structured block. -/
theorem claim_C5_witness :
    (agentDecisionExec
      (some (agentDecisionPrep (init_shared_store "q2" "https://b.example")))
      (fun _ => ⟨none⟩)).decision =
      { action := "answer", reasoning := some "Failed to parse decision" } :=
  (claim_C5_amended
    (agentDecisionPrep (init_shared_store "q2" "https://b.example"))
    (fun _ => ⟨none⟩)).1 rfl

/-- C6 (counterexample): `AgentDecision.post` matches against the
whitespace-stripped `next_url`, not the returned `next_url` itself.  With
discovery list `["za"]` and a decision returning `next_url = " a"`, no
discovered URL is a substring or superstring of the returned `" a"`, yet the
stripped `"a"` matches `"za"`, so index 0 is requeued and the `explore`
transition is emitted — where the claim predicts the `answer` transition
with no index requeued. -/
theorem claim_C6_counterexample :
    (strIn " a" "za" = false ∧ strIn "za" " a" = false) ∧
    agentDecisionPost
      { user_question := "q", question_keywords := [],
        urls_to_process := [], visited_urls := [], url_content := [],
        all_discovered_urls := ["za"], final_answer := none }
      { action := "explore", next_url := some " a" } =
      ({ user_question := "q", question_keywords := [],
         urls_to_process := [0], visited_urls := [], url_content := [],
         all_discovered_urls := ["za"], final_answer := none }, "explore") := by
  exact ⟨⟨by decide, by decide⟩, by decide⟩

/-- C6 (amended): for every decision with action `explore`, matching the
whitespace-stripped `next_url`: if no discovered URL is a substring or
superstring of it, or the first such match is already visited or already
pending, the Decision Step emits the `answer` transition with the store
unchanged (no index requeued); if the first matching position is unvisited
and non-pending, exactly that index is appended to the pending queue and the
`explore` transition is emitted. -/
theorem claim_C6_amended (s : SharedStore) (d : Decision)
    (ha : d.action = "explore") :
    (findNextUrlIndex (pyStrip (d.next_url.getD ""))
        s.all_discovered_urls = none →
      agentDecisionPost s d = (s, "answer")) ∧
    ((∀ u ∈ s.all_discovered_urls,
        (strIn (pyStrip (d.next_url.getD "")) u ||
          strIn u (pyStrip (d.next_url.getD ""))) = false) →
      agentDecisionPost s d = (s, "answer")) ∧
    (∀ i, findNextUrlIndex (pyStrip (d.next_url.getD ""))
        s.all_discovered_urls = some i →
      ((strIn (pyStrip (d.next_url.getD "")) (s.all_discovered_urls.getD i "") ||
          strIn (s.all_discovered_urls.getD i "")
            (pyStrip (d.next_url.getD ""))) = true ∧
        (∀ j < i,
          (strIn (pyStrip (d.next_url.getD "")) (s.all_discovered_urls.getD j "") ||
            strIn (s.all_discovered_urls.getD j "")
              (pyStrip (d.next_url.getD ""))) = false)) ∧
      ((i ∈ s.visited_urls ∨ i ∈ s.urls_to_process) →
        agentDecisionPost s d = (s, "answer")) ∧
      (i ∉ s.visited_urls → i ∉ s.urls_to_process →
        agentDecisionPost s d =
          ({ s with urls_to_process := s.urls_to_process ++ [i] },
           "explore"))) := by
  refine ⟨?_, ?_, ?_⟩
  · intro hf
    exact agentDecisionPost_of_none ha hf
  · intro hall
    exact agentDecisionPost_of_none ha
      ((findNextUrlIndex_eq_none_iff _ _).2 hall)
  · intro i hf
    refine ⟨findNextUrlIndex_first hf, ?_, ?_⟩
    · intro hblocked
      exact agentDecisionPost_of_some_blocked ha hf hblocked
    · intro h0 h1
      exact agentDecisionPost_of_some_free ha hf h0 h1

/-- C6 (witness): the amended theorem applied to a store whose only
discovered URL `"za"` neither contains nor is contained in the stripped
`next_url` `"qq"`, yielding the `answer` transition. -/
theorem claim_C6_witness :
    agentDecisionPost
      { user_question := "w", question_keywords := [],
        urls_to_process := [], visited_urls := [], url_content := [],
        all_discovered_urls := ["za"], final_answer := none }
      { action := "explore", next_url := some "qq" } =
      ({ user_question := "w", question_keywords := [],
         urls_to_process := [], visited_urls := [], url_content := [],
         all_discovered_urls := ["za"], final_answer := none }, "answer") :=
  (claim_C6_amended
    { user_question := "w", question_keywords := [],
      urls_to_process := [], visited_urls := [], url_content := [],
      all_discovered_urls := ["za"], final_answer := none }
    { action := "explore", next_url := some "qq" } rfl).1 (by decide)

/-- C10: for every store with a non-empty discovery list and every explore
decision whose `next_url` is missing or empty, the fuzzy match selects
index 0 — the empty (stripped) string is a substring of every discovered
URL — so the decision requeues index 0 and emits `explore` when index 0 is
unvisited and non-pending, and emits `answer` with the store unchanged
otherwise. -/
theorem claim_C10 (s : SharedStore) (d : Decision)
    (ha : d.action = "explore")
    (hnu : d.next_url = none ∨ d.next_url = some "")
    (hne : s.all_discovered_urls ≠ []) :
    findNextUrlIndex (pyStrip (d.next_url.getD ""))
      s.all_discovered_urls = some 0 ∧
    (0 ∉ s.visited_urls → 0 ∉ s.urls_to_process →
      agentDecisionPost s d =
        ({ s with urls_to_process := s.urls_to_process ++ [0] },
         "explore")) ∧
    (0 ∈ s.visited_urls ∨ 0 ∈ s.urls_to_process →
      agentDecisionPost s d = (s, "answer")) := by
  have hstr : pyStrip (d.next_url.getD "") = "" := by
    rcases hnu with h | h <;> rw [h] <;> rfl
  have hfind : findNextUrlIndex (pyStrip (d.next_url.getD ""))
      s.all_discovered_urls = some 0 := by
    rw [hstr]
    rcases hu : s.all_discovered_urls with _ | ⟨u, rest⟩
    · exact absurd hu hne
    · rw [findNextUrlIndex, if_pos (by simp [strIn_empty_left])]
  refine ⟨hfind, ?_, ?_⟩
  · intro h0 h1
    exact agentDecisionPost_of_some_free ha hfind h0 h1
  · intro hblocked
    exact agentDecisionPost_of_some_blocked ha hfind hblocked

/-- C10 (witness): the theorem applied to a store with seed discovery list
`["https://example.com"]`, no visited and no pending indices, and an explore
decision with `next_url` missing: the seed is requeued and `explore`
emitted. -/
theorem claim_C10_witness :
    agentDecisionPost
      { user_question := "w10", question_keywords := [],
        urls_to_process := [], visited_urls := [], url_content := [],
        all_discovered_urls := ["https://example.com"], final_answer := none }
      { action := "explore" } =
      ({ user_question := "w10", question_keywords := [],
         urls_to_process := [0], visited_urls := [], url_content := [],
         all_discovered_urls := ["https://example.com"],
         final_answer := none }, "explore") :=
  (claim_C10
    { user_question := "w10", question_keywords := [],
      urls_to_process := [], visited_urls := [], url_content := [],
      all_discovered_urls := ["https://example.com"], final_answer := none }
    { action := "explore" } rfl (Or.inl rfl) (by decide)).2.1
    (by decide) (by decide)

/-- C2: in every state reachable from the initial shared store
(pending `[0]`, visited `{}`, discovered `[seed]`) by any sequence of Crawl
Step and Decision Step transitions, no index is simultaneously pending and
visited, and every index in either collection is strictly less than the
length of the discovered-URL list. -/
theorem claim_C2 (q seed : String) (s : SharedStore)
    (h : Reach (init_shared_store q seed) s) :
    (∀ i ∈ s.urls_to_process, i ∉ s.visited_urls) ∧
    (∀ i ∈ s.urls_to_process, i < s.all_discovered_urls.length) ∧
    (∀ i ∈ s.visited_urls, i < s.all_discovered_urls.length) :=
  ⟨(reach_storeInv h).2.1, (reach_storeInv h).2.2.1, (reach_storeInv h).2.2.2⟩

/-- C2 (witness): the theorem applied to the initial store itself (reachable
by the empty transition sequence), at index 0. -/
theorem claim_C2_witness :
    0 ∉ (init_shared_store "q" "https://example.com").visited_urls :=
  (claim_C2 "q" "https://example.com"
    (init_shared_store "q" "https://example.com") Reach.refl).1 0
    (by simp [init_shared_store])

/-- C3: when the fetch of the pending head index returns a typed failure,
the Crawl Step marks that index visited, removes it from the pending queue,
stores no page record, leaves every other store component unchanged, and
emits `"agent_decide"`, whose flow edge leads to the Decision Step. -/
theorem claim_C3 (s : SharedStore) (idx : Nat) (rest : List Nat) (err : String)
    (hq : s.urls_to_process = idx :: rest)
    (hlt : idx < s.all_discovered_urls.length)
    (hdup : idx ∉ rest) :
    crawlStepO (.failure err) s =
      ({ s with urls_to_process := rest,
                visited_urls := setAdd idx s.visited_urls },
       "agent_decide") ∧
    idx ∈ setAdd idx s.visited_urls ∧
    idx ∉ rest ∧
    flowEdge .crawl "agent_decide" = some .agent := by
  refine ⟨?_, self_mem_setAdd idx _, hdup, rfl⟩
  unfold crawlStepO crawlPrep
  rw [hq]
  dsimp only
  rw [if_neg (Nat.not_le.mpr hlt)]
  unfold crawlExecO crawlPost
  dsimp only
  rw [hq, if_pos (List.mem_cons_self idx rest), List.erase_cons_head]
  rfl

/-- C3 (witness): the theorem applied to the initial store with a failing
fetch of the seed. -/
theorem claim_C3_witness :
    crawlStepO (.failure "boom")
      (init_shared_store "How do I get a refund?" "https://example.com") =
      ({ init_shared_store "How do I get a refund?" "https://example.com" with
          urls_to_process := [],
          visited_urls := setAdd 0 [] }, "agent_decide") :=
  (claim_C3 (init_shared_store "How do I get a refund?" "https://example.com")
    0 [] "boom" rfl (by decide) (by decide)).1

/-- C4 (counterexample): a successful fetch whose extracted relevant content
is the empty string does not merge the returned outbound links —
`CrawlAndExtract.post` guards both content recording and link merging by the
truthiness of the content, and `""` is falsy.  After a successful fetch of
the seed with empty page text and one new outbound link, the discovery list
is unchanged and no page record is stored, refuting the claim that merging
happens for every successful fetch. -/
theorem claim_C4_counterexample :
    extract_relevant_content ""
      (init_shared_store "How do I get a refund?"
        "https://example.com").question_keywords = "" ∧
    (crawlStepO
      (.success "Title" "" [⟨"https://example.com/next", "next"⟩])
      (init_shared_store "How do I get a refund?"
        "https://example.com")).1.all_discovered_urls = ["https://example.com"] ∧
    (crawlStepO
      (.success "Title" "" [⟨"https://example.com/next", "next"⟩])
      (init_shared_store "How do I get a refund?"
        "https://example.com")).1.url_content = [] ∧
    (crawlStepO
      (.success "Title" "" [⟨"https://example.com/next", "next"⟩])
      (init_shared_store "How do I get a refund?"
        "https://example.com")).1.visited_urls = [0] := by
  exact ⟨rfl, by decide, by decide, by decide⟩

/-- C4 (amended): for every successful fetch of the pending head index
whose extracted relevant content is non-empty, the Crawl Step marks the
index visited, records its page content, and merges every returned outbound
link into the discovery list — each link URL not already present appended in
the order given, duplicates skipped after first occurrence (the `dedupNew`
characterisation), so every returned link URL is discovered afterwards.
When the extracted relevant content is empty, the index is still marked
visited and dequeued, but no page record is stored and no link is merged. -/
theorem claim_C4_amended (s : SharedStore) (idx : Nat) (rest : List Nat)
    (title content : String) (links : List Link)
    (hq : s.urls_to_process = idx :: rest)
    (hlt : idx < s.all_discovered_urls.length) :
    (extract_relevant_content content s.question_keywords ≠ "" →
      crawlStepO (.success title content links) s =
        ({ s with
            urls_to_process := rest,
            visited_urls := setAdd idx s.visited_urls,
            url_content := assocSet s.url_content idx
              { url := s.all_discovered_urls.getD idx "", title := title,
                content := extract_relevant_content content
                  s.question_keywords },
            all_discovered_urls := s.all_discovered_urls ++
              dedupNew s.all_discovered_urls (links.map Link.url) },
         "agent_decide") ∧
      ∀ l ∈ links, l.url ∈
        (crawlStepO (.success title content links) s).1.all_discovered_urls) ∧
    (extract_relevant_content content s.question_keywords = "" →
      crawlStepO (.success title content links) s =
        ({ s with
            urls_to_process := rest,
            visited_urls := setAdd idx s.visited_urls },
         "agent_decide")) := by
  have hstep : crawlStepO (.success title content links) s =
      crawlPost s (some
        { url_index := idx, url := s.all_discovered_urls.getD idx "",
          title := some title,
          content := some (extract_relevant_content content
            s.question_keywords),
          links := links, error := none }) := by
    unfold crawlStepO crawlPrep
    rw [hq]
    dsimp only
    rw [if_neg (Nat.not_le.mpr hlt)]
    rfl
  constructor
  · intro hrel
    have heq : crawlStepO (.success title content links) s =
        ({ s with
            urls_to_process := rest,
            visited_urls := setAdd idx s.visited_urls,
            url_content := assocSet s.url_content idx
              { url := s.all_discovered_urls.getD idx "", title := title,
                content := extract_relevant_content content
                  s.question_keywords },
            all_discovered_urls := s.all_discovered_urls ++
              dedupNew s.all_discovered_urls (links.map Link.url) },
         "agent_decide") := by
      rw [hstep]
      unfold crawlPost
      dsimp only
      rw [hq, if_pos (List.mem_cons_self idx rest), List.erase_cons_head,
        if_pos (by simpa [contentTruthy] using hrel),
        links_foldl_discover]
      rfl
    refine ⟨heq, ?_⟩
    intro l hl
    rw [heq]
    exact mem_append_dedupNew s.all_discovered_urls
      (List.mem_map_of_mem Link.url hl)
  · intro hrel
    rw [hstep]
    unfold crawlPost
    dsimp only
    rw [hq, if_pos (List.mem_cons_self idx rest), List.erase_cons_head,
      if_neg (by simp [contentTruthy, hrel])]

/-- C4 (witness): the amended theorem applied to the initial store with a
successful fetch whose relevant content is non-empty and which returns one
new outbound link; the URL of that link is discovered afterwards. -/
theorem claim_C4_witness :
    "https://example.com/next" ∈
      (crawlStepO
        (.success "Title" "refund info here"
          [⟨"https://example.com/next", "next"⟩])
        (init_shared_store "How do I get a refund?"
          "https://example.com")).1.all_discovered_urls :=
  ((claim_C4_amended
    (init_shared_store "How do I get a refund?" "https://example.com")
    0 [] "Title" "refund info here" [⟨"https://example.com/next", "next"⟩]
    rfl (by decide)).1 (by decide)).2
    ⟨"https://example.com/next", "next"⟩ (by simp)

/- ### Remaining claims: run termination, keyword extraction, link scoring -/

/-- A model response the Decision Step cannot parse: the structured block is
absent, or loading it raises. -/
def Unparseable (r : ModelResponse) : Prop :=
  r.block = none ∨ ∃ e, r.block = some (Except.error e)

/-- With a model oracle that is never parseable, a Decision Step leaves the
store unchanged, emits `"answer"`, and did call the model. -/
theorem decisionStep_unparseable (llm : String → ModelResponse)
    (h : ∀ p, Unparseable (llm p)) (s : SharedStore) :
    agentDecisionStep llm s = (s, "answer", true) := by
  have hout : (agentDecisionExec (some (agentDecisionPrep s)) llm).decision.action
      = "answer" := by
    unfold agentDecisionExec
    dsimp only
    rcases h (buildDecisionPrompt (agentDecisionPrep s)) with hb | ⟨e, hb⟩ <;>
      rw [hb]
  have hne : (agentDecisionExec (some (agentDecisionPrep s)) llm).decision.action
      ≠ "explore" := by
    rw [hout]
    decide
  unfold agentDecisionStep
  dsimp only
  rw [agentDecisionPost_not_explore hne]
  rfl

theorem runLoop_stop (fetch : String → FetchOutcome)
    (llm : String → ModelResponse) (n : Nat) (s : SharedStore)
    (hd : (agentDecisionStep llm (crawlStep fetch s).1).2.1 ≠ "explore") :
    runLoop fetch llm (n + 1) s =
      ((agentDecisionStep llm (crawlStep fetch s).1).1,
       (agentDecisionStep llm (crawlStep fetch s).1).2.1, 1) := by
  rw [runLoop]
  dsimp only
  rw [if_neg hd]

/-- A Crawl Step from the freshly initialised store, whatever the fetch
outcome, visits exactly index 0 and empties the pending queue. -/
theorem crawl_init_fields (out : FetchOutcome) (q seed : String) :
    (crawlStepO out (init_shared_store q seed)).1.visited_urls = [0] ∧
    (crawlStepO out (init_shared_store q seed)).1.urls_to_process = [] := by
  cases out with
  | failure e => exact ⟨rfl, rfl⟩
  | success t c l =>
    have hstep : crawlStepO (.success t c l) (init_shared_store q seed) =
        crawlPost (init_shared_store q seed) (some
          { url_index := 0, url := seed, title := some t,
            content := some (extract_relevant_content c
              (extract_question_keywords q)),
            links := l, error := none }) := rfl
    rw [hstep, crawlPost_some_fst]
    constructor
    · split <;> rfl
    · split <;> rfl

/-- C7: for every run whose model collaborator always returns an unparseable
decision response, the crawl/decide loop started on the initialised store
terminates after exactly one cycle with the `answer` transition — only the
seed index 0 has been fetched and visited, the pending queue is empty, and
the `answer` edge leads to the Answer Step. -/
theorem claim_C7 (q seed : String) (fetch : String → FetchOutcome)
    (llm : String → ModelResponse) (fuel : Nat)
    (hllm : ∀ p, Unparseable (llm p)) (hfuel : 1 ≤ fuel) :
    (runLoop fetch llm fuel (init_shared_store q seed)).2.2 = 1 ∧
    (runLoop fetch llm fuel (init_shared_store q seed)).2.1 = "answer" ∧
    (runLoop fetch llm fuel (init_shared_store q seed)).1.visited_urls = [0] ∧
    (runLoop fetch llm fuel (init_shared_store q seed)).1.urls_to_process = [] ∧
    flowEdge .agent "answer" = some .draft := by
  obtain ⟨n, rfl⟩ : ∃ n, fuel = n + 1 := ⟨fuel - 1, by omega⟩
  have hcs : crawlStep fetch (init_shared_store q seed) =
      crawlStepO (fetch seed) (init_shared_store q seed) := rfl
  have hd := decisionStep_unparseable llm hllm
    (crawlStep fetch (init_shared_store q seed)).1
  have hrun : runLoop fetch llm (n + 1) (init_shared_store q seed) =
      ((crawlStep fetch (init_shared_store q seed)).1, "answer", 1) := by
    rw [runLoop_stop fetch llm n (init_shared_store q seed)
      (by rw [hd]; dsimp only; decide), hd]
  obtain ⟨hv, hp⟩ := crawl_init_fields (fetch seed) q seed
  refine ⟨by rw [hrun], by rw [hrun], ?_, ?_, rfl⟩
  · rw [hrun]
    dsimp only
    rw [hcs, hv]
  · rw [hrun]
    dsimp only
    rw [hcs, hp]

/-- C7 (witness): the theorem applied to a concrete always-failing fetch and
a model oracle that never returns a structured block, with fuel 5. -/
theorem claim_C7_witness :
    (runLoop (fun _ => .failure "down") (fun _ => ⟨none⟩) 5
      (init_shared_store "How do I get a refund?" "https://example.com")).2.2
      = 1 :=
  (claim_C7 "How do I get a refund?" "https://example.com"
    (fun _ => .failure "down") (fun _ => ⟨none⟩) 5
    (fun _ => Or.inl rfl) (by omega)).1

/-- C8 (counterexample): `extract_question_keywords` applied to
`"How do I get a refund?"` returns `["get", "refund"]`, not `["refund"]` —
the word `"get"` is not in the stop-word list and has length 3, so it is
retained, refuting the claimed keyword set `{"refund"}`. -/
theorem claim_C8_counterexample :
    extract_question_keywords "How do I get a refund?" = ["get", "refund"] ∧
    (["get", "refund"] : List String) ≠ ["refund"] ∧
    "get" ∉ stop_words ∧ ("get" : String).length = 3 := by
  exact ⟨by decide, by decide, by decide, by decide⟩

/-- C8 (amended): `extract_question_keywords` applied to
`"How do I get a refund?"` returns exactly `["get", "refund"]`: the words
`"how"`, `"do"`, `"i"` and `"a"` are removed as stop words or short tokens,
while `"get"` is retained because it is absent from the stop-word list and
exceeds the length-2 cut-off. -/
theorem claim_C8_amended :
    extract_question_keywords "How do I get a refund?" = ["get", "refund"] ∧
    "how" ∈ stop_words ∧ "do" ∈ stop_words ∧ "a" ∈ stop_words ∧
    ("i" : String).length ≤ 2 ∧ "get" ∉ stop_words := by
  exact ⟨by decide, by decide, by decide, by decide, by decide, by decide⟩

/-- C9: the link `{url: "https://example.com/support/returns",
text: "Returns Policy"}`, scored against the keywords extracted from
`"How do I get a refund?"`, is assigned score 3 (≥ 2) by the
`find_relevant_urls` scoring — the helpful-page indicators `support`,
`policy` and `return` each match — and is ranked with that score. -/
theorem claim_C9 :
    scoreLink
      { url := "https://example.com/support/returns", text := "Returns Policy" }
      (extract_question_keywords "How do I get a refund?") = 3 ∧
    2 ≤ scoreLink
      { url := "https://example.com/support/returns", text := "Returns Policy" }
      (extract_question_keywords "How do I get a refund?") ∧
    find_relevant_urls
      [{ url := "https://example.com/support/returns", text := "Returns Policy" }]
      (extract_question_keywords "How do I get a refund?") =
      [{ url := "https://example.com/support/returns",
         text := "Returns Policy", score := 3 }] := by
  exact ⟨by decide, by decide, by decide⟩
